import Mathlib

/-!
Verification development for the downloads-organizer repository.

We give a shallow embedding of the claim-relevant parts of the code base:
the shared file utilities (`utils.py`), the media organizer
(`media_organizer.py`), the PDF organizer (`pdf_organizer.py`) and the
watcher throttle (`watcher.py`).

Modelling conventions:
- A filesystem is a finite association list from structured paths to file
  contents (lists of bytes).  A structured path records the containing
  directory, the stem and the extension, mirroring pathlib `parent`,
  `stem` and `suffix`.
- MD5 digests are idealized as collision free: the digest of a file is its
  content.  Size is content length.
- The outcome of a `shutil.copy2` call is passed in explicitly as the byte
  list `copied` that actually landed at the destination; a faithful copy
  has `copied` equal to the source content, a corrupted or truncated copy
  does not.
-/

namespace DownloadsOrganizer

/-- File content: a list of bytes. -/
abbrev Content := List Nat

/-- A structured filesystem path: directory, stem and extension
(pathlib parent, stem, suffix). -/
structure FPath where
  dir : String
  stem : String
  ext : String
deriving DecidableEq

/-- A filesystem: a finite association list from paths to contents. -/
abbrev FS := List (FPath × Content)

/-- Look up the content stored at a path. -/
def lookupFS : FS → FPath → Option Content
  | [], _ => none
  | (q, c) :: rest, p => if q = p then some c else lookupFS rest p

/-- `Path.exists()` over the modelled filesystem. -/
def fexists (fs : FS) (p : FPath) : Bool :=
  (lookupFS fs p).isSome

/-- Remove a path from the filesystem (`Path.unlink`). -/
def removeFS : FS → FPath → FS
  | [], _ => []
  | (q, c) :: rest, p => if q = p then removeFS rest p else (q, c) :: removeFS rest p

/-- Write content at a path, replacing what was there (`shutil.copy2` target). -/
def insertFS (fs : FS) (p : FPath) (c : Content) : FS :=
  (p, c) :: removeFS fs p

/-- The paths present in a filesystem. -/
def keysFS (fs : FS) : List FPath :=
  fs.map Prod.fst


/-!
### Injectivity of decimal rendering

The collision loops build candidate names with a Python f-string
`f"{stem}_{counter}{suffix}"`; distinct counters give distinct names
because the decimal rendering of a natural number is injective.  We prove
that fact about `Nat.repr` here.
-/

/-- Numeric value of a decimal digit character. -/
def digitVal (c : Char) : Nat := c.toNat - 48

/-- Value of a list of decimal digit characters, most significant first. -/
def digitsVal (l : List Char) : Nat :=
  l.foldl (fun a c => 10 * a + digitVal c) 0


/-!
### utils.py
-/

/-- utils.get_file_checksum: the digest of a file content, idealized as a
collision-free function (the content itself). -/
def get_file_checksum (c : Content) : Content := c

/-- utils.files_are_identical: both files exist, sizes match (cheap check
first), and the full checksums match. -/
def files_are_identical (fs : FS) (file1 file2 : FPath) : Bool :=
  match lookupFS fs file1, lookupFS fs file2 with
  | some c1, some c2 =>
    if c1.length ≠ c2.length then false
    else decide (get_file_checksum c1 = get_file_checksum c2)
  | _, _ => false

/-- utils.safe_move: copy-then-delete with optional verification.  The
`copied` argument is the byte list the copy operation actually wrote at the
destination (equal to the source content unless the copy was corrupted).
Returns the new filesystem and the boolean result.  The exception branch of
the source (copy raising) is subsumed by verification failure for a missing
or corrupt destination. -/
def safe_move (fs : FS) (source destination : FPath) (copied : Content)
    (verify : Bool) : FS × Bool :=
  if ¬ fexists fs source then (fs, false)
  else
    let fs1 := insertFS fs destination copied
    if verify && ! files_are_identical fs1 source destination then
      -- verification failed: remove the failed copy, keep the source
      (removeFS fs1 destination, false)
    else
      -- delete the original
      (removeFS fs1 source, true)

/-- The candidate path built inside the collision loops:
f-string stem_counter plus the original extension, in the same folder. -/
def candidateName (dest : FPath) (counter : Nat) : FPath :=
  ⟨dest.dir, dest.stem ++ "_" ++ Nat.repr counter, dest.ext⟩

/-- The while loop shared by utils.get_unique_path and
media_organizer.get_unique_filename: try stem_counter, stem_counter+1, ...
until a free path is found.  `fuel` bounds the number of iterations; we
prove below that `fs.length + 1` iterations always suffice, so the loop in
the source, which has no bound, terminates with the same result. -/
def findFree (fs : FS) (dest : FPath) : Nat → Nat → Option FPath
  | _, 0 => none
  | counter, fuel + 1 =>
    if fexists fs (candidateName dest counter) then
      findFree fs dest (counter + 1) fuel
    else
      some (candidateName dest counter)

/-- utils.get_unique_path: the destination itself when free, otherwise the
first free numbered candidate, counting from 2. -/
def get_unique_path (fs : FS) (destination : FPath) : FPath :=
  if fexists fs destination then
    (findFree fs destination 2 (fs.length + 1)).getD destination
  else
    destination

/-- media_organizer.get_unique_filename: the desired name in the
destination folder when free, otherwise the first free numbered candidate,
counting from 1. -/
def get_unique_filename (fs : FS) (dest_folder stem ext : String) : FPath :=
  if fexists fs ⟨dest_folder, stem, ext⟩ then
    (findFree fs ⟨dest_folder, stem, ext⟩ 1 (fs.length + 1)).getD
      ⟨dest_folder, stem, ext⟩
  else
    ⟨dest_folder, stem, ext⟩


/-!
### media_organizer.py: relocation
-/

/-- media_organizer.get_md5: the MD5 digest of a file, idealized as the
content itself; None when the file cannot be read. -/
def get_md5 (fs : FS) (p : FPath) : Option Content :=
  lookupFS fs p

/-- The status field of the organize_file result dictionary. -/
inductive OrgStatus where
  | moved
  | would_move
  | skipped
  | error
deriving DecidableEq

/-- The claim-relevant slice of the organize_file result dictionary. -/
structure OrgResult where
  fs : FS
  status : OrgStatus
  to_path : Option FPath
  err : Option String

/-- media_organizer.organize_file, from the point where the destination
folder and the formatted filename have been computed (the classification
and date-resolution steps above it fix `dest_folder`, `new_stem` and
`new_ext`): collision resolution, the already-in-place check, the
duplicate-content check, then the copy-then-delete (or direct move)
execution.  `copied` is the byte list the copy actually wrote. -/
def organize_file_move (fs : FS) (file_path : FPath) (dest_folder new_stem new_ext : String)
    (copied : Content) (dry_run copy_then_delete : Bool) : OrgResult :=
  let dest_path := get_unique_filename fs dest_folder new_stem new_ext
  -- check if already in correct location
  if file_path = dest_path then
    ⟨fs, .skipped, none, some "Already in correct location"⟩
  -- check for duplicate content (if file exists at destination)
  else if fexists fs dest_path && fexists fs file_path &&
      (match get_md5 fs file_path, get_md5 fs dest_path with
       | some source_hash, some dest_hash => decide (source_hash = dest_hash)
       | _, _ => false) then
    ⟨fs, .skipped, none, some "Duplicate content (same MD5 hash)"⟩
  else if dry_run then
    ⟨fs, .would_move, some dest_path, none⟩
  else if copy_then_delete then
    match lookupFS fs file_path with
    | none =>
      -- shutil.copy2 raises: caught, status stays error
      ⟨fs, .error, none, some "copy failed"⟩
    | some source_content =>
      -- copy first
      let fs1 := insertFS fs dest_path copied
      -- verify copy was successful: destination exists with the source size
      if fexists fs1 dest_path && decide (copied.length = source_content.length) then
        -- delete original
        ⟨removeFS fs1 file_path, .moved, some dest_path, none⟩
      else
        ⟨fs1, .error, none, some "Copy verification failed"⟩
  else
    match lookupFS fs file_path with
    | none => ⟨fs, .error, none, some "move failed"⟩
    | some source_content =>
      ⟨insertFS (removeFS fs file_path) dest_path source_content, .moved, some dest_path, none⟩

/-- Repeatedly relocating a list of source files that all map to the same
destination folder and base name, through organize_file with a faithful
copy, collecting the chosen destination paths. -/
def relocate_all (dest_folder new_stem new_ext : String) : FS → List FPath → FS × List FPath
  | fs, [] => (fs, [])
  | fs, s :: rest =>
    let r := organize_file_move fs s dest_folder new_stem new_ext
      ((lookupFS fs s).getD []) false true
    let rec_result := relocate_all dest_folder new_stem new_ext r.fs rest
    (rec_result.1, (r.to_path.getD ⟨dest_folder, new_stem, new_ext⟩) :: rec_result.2)

/-!
### media_organizer.py: date resolution
-/

/-- Association lookup (Python dict access / `key in dict`). -/
def alookup {α : Type} : List (String × α) → String → Option α
  | [], _ => none
  | (k, v) :: rest, key => if k = key then some v else alookup rest key

/-- The environment a media date resolution runs in: the prebuilt Facebook
HTML lookup table, the result of reading the sidecar JSON, the metadata
returned by the external metadata tool, the file modification time (None
when stat fails), and the current time.  Timestamps are naturals. -/
structure MediaEnv where
  htmlLookup : List (String × Nat)
  sidecar : Option (Nat × String)
  metadata : List (String × String)
  mtime : Option Nat
  now : Nat

/-- media_organizer.extract_facebook_html_date: look the filename up in the
global lookup table; an empty table short-circuits to None. -/
def extract_facebook_html_date (env : MediaEnv) (filename : String) : Option (Nat × String) :=
  if env.htmlLookup.isEmpty then none
  else
    match alookup env.htmlLookup filename with
    | some d => some (d, "Facebook HTML index")
    | none => none

/-- The EXIF date fields tried, in order of preference. -/
def date_fields : List String :=
  ["DateTimeOriginal", "CreateDate", "MediaCreateDate", "ModifyDate"]

/-- The for-loop over date fields inside get_media_date: first field that
is present in the metadata and parses wins. -/
def exif_date_scan (parse : String → Option Nat) (metadata : List (String × String)) :
    List String → Option (Nat × String)
  | [] => none
  | f :: rest =>
    match alookup metadata f with
    | some v =>
      match parse v with
      | some d => some (d, "EXIF " ++ f)
      | none => exif_date_scan parse metadata rest
    | none => exif_date_scan parse metadata rest

/-- The metadata actually used by get_media_date: the argument when given,
otherwise the result of extract_media_metadata (the environment value). -/
def effectiveMetadata (env : MediaEnv)
    (metadataArg : Option (List (String × String))) : List (String × String) :=
  match metadataArg with
  | some m => m
  | none => env.metadata

/-- The EXIF stage of the chain: skipped entirely when the metadata
dictionary is empty. -/
def exifStage (env : MediaEnv) (parse : String → Option Nat)
    (metadataArg : Option (List (String × String))) : Option (Nat × String) :=
  if (effectiveMetadata env metadataArg).isEmpty then none
  else exif_date_scan parse (effectiveMetadata env metadataArg) date_fields

/-- media_organizer.get_media_date: the fallback chain.  `parse` embeds
parse_exif_date; `metadataArg` is the optional pre-extracted metadata
argument (None means extract_media_metadata is consulted, i.e. the
environment metadata). -/
def get_media_date (env : MediaEnv) (parse : String → Option Nat) (filename : String)
    (metadataArg : Option (List (String × String))) : Nat × String :=
  -- 1. Facebook HTML lookup
  match extract_facebook_html_date env filename with
  | some r => r
  | none =>
  -- 2. Facebook sidecar JSON
  match env.sidecar with
  | some r => r
  | none =>
  -- 3. EXIF metadata
  match exifStage env parse metadataArg with
  | some r => r
  | none =>
  -- 4. file modification time
  match env.mtime with
  | some t => (t, "file modification time")
  | none =>
  -- 5. last resort: current date
  (env.now, "current date (fallback)")

/-!
### pdf_organizer.py: classification
-/

/-- Python substring containment `sub in s`. -/
def containsStr (s sub : String) : Bool :=
  decide (sub.data <:+: s.data)

/-- Python str.upper, for the ASCII alphabet (all patterns are ASCII).
Extensionally equal to String.toUpper, written over the character list so
that the kernel can evaluate it. -/
def pyUpper (s : String) : String :=
  ⟨s.data.map Char.toUpper⟩

/-- Python emptiness test on a string (`not s`), over the character list. -/
def pyIsEmpty (s : String) : Bool :=
  s.data.isEmpty

/-- Python str.startswith, over the character lists. -/
def pyStartsWith (s pre : String) : Bool :=
  pre.data.isPrefixOf s.data

/-- pdf_organizer.GLOBAL_EXCLUSIONS. -/
def GLOBAL_EXCLUSIONS : List String :=
  ["PROPOSAL", "SOW", "STATEMENT OF WORK",
   "INFOCENTER", "BUC-EE", "BUCEE",
   ".PPT", "POWERPOINT", "PRESENTATION",
   "EXECUTIVE SUMMARY", "MANAGED SERVICES",
   "PARTNERSHIP AGREEMENT", "VENDOR", "CLIENT",
   "NIKE", "ZILLOW", "CODEIUM", "SERVICENOW",
   "BETTER CHAT", "DREAM BIGGER", "URBANE"]

/-- One entry of pdf_organizer.DOCUMENT_CATEGORIES. -/
structure CatConfig where
  id : String
  folder : String
  patterns : List String
  filename_patterns : List String
  exclude_patterns : List String

/-- pdf_organizer.DOCUMENT_CATEGORIES, in dictionary insertion order. -/
def DOCUMENT_CATEGORIES : List CatConfig :=
  [⟨"TAX_FORMS", "Tax Forms",
    ["FORM W-2", "W-2 WAGE", "WAGE AND TAX STATEMENT",
     "FORM 1099", "1099-INT", "1099-DIV", "1099-MISC", "1099-NEC", "1099-B", "1099-R",
     "FORM 1040", "FORM 1098", "1098-E", "1098-T",
     "FORM 5498", "IRA CONTRIBUTION", "FORM 1095",
     "SCHEDULE K-1", "IRS FORM", "INTERNAL REVENUE SERVICE"],
    ["w-2", "w2", "1099", "1040", "1098", "5498", "1095", "k-1"],
    ["PROPOSAL", "SOW", "STATEMENT OF WORK", "PRESENTATION",
     "INFOCENTER", "MANAGED SERVICES", "EXECUTIVE", "VENDOR"]⟩,
   ⟨"RECEIPTS", "Receipts",
    ["RECEIPT FOR PAYMENT", "PAYMENT RECEIPT",
     "PAID IN FULL", "INVOICE PAID", "TRANSACTION RECEIPT"],
    ["receipt", "paid"],
    ["PROPOSAL", "QUOTE", "ESTIMATE", "SOW", "DRAFT"]⟩,
   ⟨"INSURANCE", "Insurance",
    ["INSURANCE POLICY", "POLICY NUMBER", "COVERAGE SUMMARY",
     "INSURANCE PREMIUM", "DECLARATIONS PAGE"],
    ["insurance policy", "coverage"],
    ["PROPOSAL", "QUOTE", "ESTIMATE"]⟩,
   ⟨"MEDICAL", "Medical",
    ["EXPLANATION OF BENEFITS", "EOB", "PATIENT STATEMENT",
     "MEDICAL BILL", "HEALTHCARE STATEMENT"],
    ["eob", "patient statement", "medical bill"],
    ["PROPOSAL", "ESTIMATE"]⟩,
   ⟨"LEGAL", "Legal",
    ["LEASE AGREEMENT", "RENTAL AGREEMENT",
     "PROPERTY DEED", "WARRANTY DEED", "TITLE INSURANCE", "NOTARIZED"],
    ["lease", "deed", "title"],
    ["PROPOSAL", "SOW", "BUSINESS", "CORPORATE", "VENDOR"]⟩,
   ⟨"PROPERTY", "Property",
    ["PROPERTY TAX STATEMENT", "PROPERTY TAX BILL", "TAX ASSESSOR",
     "REAL ESTATE TAX", "COUNTY TAX", "APPRAISAL DISTRICT"],
    ["property tax", "real estate tax"],
    ["PROPOSAL", "ESTIMATE"]⟩]

/-- categorize_document condition for missing or unreadable text. -/
def catNoText (text : String) : Bool :=
  pyIsEmpty text || text == "NO_TEXT" || pyStartsWith text "ERROR:"

/-- The text_upper value computed by categorize_document. -/
def catTextUpper (text : String) : String :=
  if catNoText text then "" else pyUpper text

/-- The filename_match local of the category loop body. -/
def catFilenameMatch (fnU : String) (c : CatConfig) : Bool :=
  c.filename_patterns.any (fun p => containsStr fnU (pyUpper p))

/-- The content_match local of the category loop body. -/
def catContentMatch (txtU : String) (c : CatConfig) : Bool :=
  ! pyIsEmpty txtU && c.patterns.any (fun p => containsStr txtU p)

/-- The Layer 2 for-loop of categorize_document over the category table. -/
def categorize_loop (fnU txtU : String) (no_text : Bool) :
    List CatConfig → Option String × Nat
  | [] => (none, 0)
  | c :: rest =>
    -- category-specific exclusions
    if c.exclude_patterns.any (fun p =>
        containsStr fnU p || (! pyIsEmpty txtU && containsStr txtU p)) then
      categorize_loop fnU txtU no_text rest
    else if catFilenameMatch fnU c || catContentMatch txtU c then
      (some c.id,
        if catFilenameMatch fnU c && catContentMatch txtU c then 95
        else if catFilenameMatch fnU c && no_text then 75
        else 85)
    else
      categorize_loop fnU txtU no_text rest

/-- pdf_organizer.categorize_document: global exclusion veto, then the
category loop.  Returns (category id, confidence). -/
def categorize_document (filename text : String) : Option String × Nat :=
  let filename_upper := pyUpper filename
  let no_text := catNoText text
  let text_upper := catTextUpper text
  -- Layer 1: global exclusions
  if GLOBAL_EXCLUSIONS.any (fun e =>
      containsStr filename_upper e ||
        (! pyIsEmpty text_upper && containsStr text_upper e)) then
    (none, 0)
  else
    categorize_loop filename_upper text_upper no_text DOCUMENT_CATEGORIES

/-- The acceptance gate at the top of process_general_document: a result
with no category or confidence below 75 is discarded (the file is left
uncategorized). -/
def general_confidence_gate (category_id : Option String) (confidence : Nat) :
    Option String :=
  if category_id.isNone || confidence < 75 then none else category_id

/-!
### pdf_organizer.py: bank/investment document detection
-/

/-- One entry of pdf_organizer.DOCUMENT_TYPES (the fields consulted by
detect_document_type). -/
structure DocTypeConfig where
  id : String
  name : String
  filename_patterns : List String
  content_keywords : List String
  account_identifier : Option String
deriving DecidableEq

/-- pdf_organizer.DOCUMENT_TYPES, in dictionary insertion order. -/
def DOCUMENT_TYPES : List DocTypeConfig :=
  [⟨"STR_RENTAL", "STR Rental Income",
    ["STR", "MONTCLAIRE", "AIRBNB"],
    ["STR MANAGEMENT", "S.T.R. MANAGEMENT", "STRMANAGEMENT.COM",
     "SHORT TERM RENTAL MANAGEMENT", "2200 MONTCLAIRE",
     "STATEMENT OF ACCOUNT", "RENTAL INCOME", "DISTRIBUTION", "RENTS"],
    none⟩,
   ⟨"VANGUARD_TAX_FORMS", "Vanguard Brokerage",
    ["VANGUARD", "1099", "5498", "BROKERAGE"],
    ["VANGUARD", "FORM 1099", "FORM 5498", "VANGUARD BROKERAGE SERVICES"],
    some "account_extraction"⟩,
   ⟨"FIDELITY_1099", "Fidelity Brokerage",
    ["TAX REPORTING STATEMENT", "FIDELITY", "1099", "5498"],
    ["FIDELITY", "FORM 1099", "FORM 5498", "TAX REPORTING STATEMENT",
     "NATIONAL FINANCIAL SERVICES"],
    some "account_extraction"⟩,
   ⟨"COLONIAL", "Colonial Loan",
    ["LIS VIEW DOCUMENT", "COLONIAL", "7063"],
    ["COLONIAL", "MONTHLY BILLING STATEMENT", "ACCOUNT NUMBER 30197063"],
    some "7063"⟩,
   ⟨"AMEX_PERS", "AMEX CC",
    ["ACCOUNT ACTIVITY"],
    ["AMERICAN EXPRESS", "AMEX"],
    some "91004"⟩,
   ⟨"AMEX_BIZ", "AMEX Amazon CC",
    ["ACCOUNT ACTIVITY"],
    ["AMERICAN EXPRESS", "AMEX"],
    some "41004"⟩,
   ⟨"CHASE_LOAN", "Chase Loan",
    ["STATEMENTS", "ESCROW", "MORTGAGE"],
    ["JPMORGAN CHASE", "CHASE HOME LENDING", "CHASE MORTGAGE", "ESCROW"],
    some "0675"⟩,
   ⟨"CHASE_CC", "Chase CC",
    ["CHASE", "CREDIT CARD"],
    ["JPMORGAN CHASE", "CHASE.COM", "CREDIT CARD ACCOUNT"],
    none⟩,
   ⟨"FREEDOM_MORTGAGE", "Freedom Mortgage",
    ["BILLING", "FREEDOM", "MORTGAGE"],
    ["FREEDOM MORTGAGE", "FREEDOMMORTGAGE.COM", "MORTGAGE STATEMENT"],
    some "5438"⟩]

/-- The text_upper value computed by detect_document_type. -/
def detectTextUpper (text : String) : String :=
  if ! pyIsEmpty text && text != "NO_TEXT" && ! pyStartsWith text "ERROR:" then
    pyUpper text
  else ""

/-- The filename_match local of the detect_document_type loop body. -/
def dtFilenameMatch (fnU : String) (t : DocTypeConfig) : Bool :=
  t.filename_patterns.any (fun p => containsStr fnU p)

/-- The content_match local of the detect_document_type loop body. -/
def dtContentMatch (txtU : String) (t : DocTypeConfig) : Bool :=
  ! pyIsEmpty txtU && t.content_keywords.any (fun k => containsStr txtU k)

/-- The filename-or-content basic match. -/
def dtBasic (fnU txtU : String) (t : DocTypeConfig) : Bool :=
  dtFilenameMatch fnU t || dtContentMatch txtU t

/-- Special validation for AMEX: the entry is rejected (continue) when the
guard applies and a closing-date marker or the account identifier token is
missing from the content. -/
def amexReject (fnU txtU : String) (t : DocTypeConfig) : Bool :=
  pyStartsWith t.id "AMEX" && dtBasic fnU txtU t &&
    (! containsStr txtU "CLOSING DATE" ||
      (match t.account_identifier with
       | some a => ! containsStr txtU a && ! containsStr txtU ("9-" ++ a)
       | none => false))

/-- Special validation for Chase. -/
def chaseReject (fnU txtU : String) (t : DocTypeConfig) : Bool :=
  pyStartsWith t.id "CHASE" && dtBasic fnU txtU t &&
    (! (["STATEMENT DATE", "CLOSING DATE", "ACCOUNT STATEMENT"].any
          (fun s => containsStr txtU s) ||
        ["BILLING", "ESCROW", "STATEMENTS"].any (fun s => containsStr fnU s)) ||
      (t.id == "CHASE_LOAN" &&
        (match t.account_identifier with
         | some a => ! containsStr txtU a
         | none => false)))

/-- Special validation for Vanguard: requires tax-form and Vanguard
markers, and a successful account-number extraction (`ev`). -/
def vanguardReject (ev : String → Option String) (fnU txtU : String)
    (t : DocTypeConfig) : Bool :=
  t.id == "VANGUARD_TAX_FORMS" && dtBasic fnU txtU t &&
    (! (["FORM 1099", "FORM 5498", "1099-DIV", "1099-INT", "1099-B"].any
          (fun s => containsStr txtU s) && containsStr txtU "VANGUARD") ||
      (ev txtU).isNone)

/-- Special validation for Fidelity: requires Fidelity-form and Fidelity
markers, and a successful account-number extraction (`ef`). -/
def fidelityReject (ef : String → Option String) (fnU txtU : String)
    (t : DocTypeConfig) : Bool :=
  t.id == "FIDELITY_1099" && dtBasic fnU txtU t &&
    (! (["FORM 1099-DIV", "FORM 1099-INT", "FORM 1099-B", "FORM 5498"].any
          (fun s => containsStr txtU s) &&
        ["FIDELITY BROKERAGE", "NATIONAL FINANCIAL SERVICES"].any
          (fun s => containsStr txtU s)) ||
      (ef txtU).isNone)

/-- Special validation for STR Rental. -/
def strReject (fnU txtU : String) (t : DocTypeConfig) : Bool :=
  t.id == "STR_RENTAL" && dtBasic fnU txtU t &&
    (["PROPERTY MANAGEMENT AGREEMENT", "THIS AGREEMENT", "HEREBY APPOINTS"].any
        (fun s => containsStr txtU s) ||
      ! (["STR MANAGEMENT", "S.T.R. MANAGEMENT", "STRMANAGEMENT.COM"].any
            (fun s => containsStr txtU s) &&
          ["RENTAL INCOME", "AIRBNB", "VRBO", "DISTRIBUTION", "RENTS"].any
            (fun s => containsStr txtU s)))

/-- Whether a document type entry matches in detect_document_type: the
basic filename-or-content match together with the special per-family
validations, each of which `continue`s (rejects the entry) when it fails.
The account-number extraction functions extract_vanguard_account and
extract_fidelity_account are regex-based and passed in as `ev` and `ef`. -/
def detectPass (ev ef : String → Option String) (fnU txtU : String)
    (t : DocTypeConfig) : Bool :=
  ! amexReject fnU txtU t && ! chaseReject fnU txtU t &&
    ! vanguardReject ev fnU txtU t && ! fidelityReject ef fnU txtU t &&
    ! strReject fnU txtU t && dtBasic fnU txtU t

/-- pdf_organizer.detect_document_type: the first document type whose
patterns and validations all pass, or None. -/
def detect_document_type (ev ef : String → Option String) (filename text : String) :
    Option (String × DocTypeConfig) :=
  let filename_upper := pyUpper filename
  let text_upper := detectTextUpper text
  (DOCUMENT_TYPES.find? (fun t => detectPass ev ef filename_upper text_upper t)).map
    (fun t => (t.id, t))

/-!
### pdf_organizer.py: audit pass
-/

/-- The per-file disposition logic of audit_tax_folders once the correct
destination folder and name for the file have been recomputed: skip when
the file already is the correct path, when it already sits in the correct
folder, or when the correct path is occupied (identical or not); otherwise
move the file there.  Returns the new filesystem and whether the file was
relocated. -/
def audit_relocate (fs : FS) (pdf_file : FPath) (correct_folder : String)
    (correct_stem correct_ext : String) (dry_run : Bool) : FS × Bool :=
  let correct_path : FPath := ⟨correct_folder, correct_stem, correct_ext⟩
  if pdf_file = correct_path then (fs, false)
  else if pdf_file.dir = correct_folder then (fs, false)
  else if fexists fs correct_path then
    if files_are_identical fs pdf_file correct_path then (fs, false)
    else (fs, false)
  else if dry_run then (fs, true)
  else
    (insertFS (removeFS fs pdf_file) correct_path ((lookupFS fs pdf_file).getD []), true)

/-!
### watcher.py: throttle
-/

/-- config.MIN_RUN_INTERVAL (seconds). -/
def MIN_RUN_INTERVAL : Int := 10

/-- The two organizer kinds dispatched by the watcher. -/
inductive OrganizerKind where
  | pdf
  | media
deriving DecidableEq

/-- The module-level throttle state of watcher.py. -/
structure ThrottleState where
  last_pdf_run : Int
  last_media_run : Int
deriving DecidableEq

/-- The throttle gate of DownloadsHandler._run_organizer: skip when the
last run of this kind was less than MIN_RUN_INTERVAL ago, otherwise record
the dispatch time and invoke the organizer.  Returns the new state and
whether the organizer was invoked. -/
def run_organizer_gate (st : ThrottleState) (kind : OrganizerKind)
    (current_time : Int) : ThrottleState × Bool :=
  match kind with
  | .pdf =>
    if current_time - st.last_pdf_run < MIN_RUN_INTERVAL then (st, false)
    else ({ st with last_pdf_run := current_time }, true)
  | .media =>
    if current_time - st.last_media_run < MIN_RUN_INTERVAL then (st, false)
    else ({ st with last_media_run := current_time }, true)

/-!
### Supporting lemmas
-/

theorem lookupFS_removeFS (fs : FS) (p q : FPath) :
    lookupFS (removeFS fs p) q = if q = p then none else lookupFS fs q := by
  induction fs with
  | nil => simp [removeFS, lookupFS]
  | cons e rest ih =>
    obtain ⟨r, c⟩ := e
    by_cases hqp : q = p
    · subst hqp
      by_cases hrq : r = q <;> simp [removeFS, lookupFS, hrq, ih]
    · by_cases hrp : r = p
      · simp [removeFS, lookupFS, hrp, hqp, Ne.symm hqp, ih]
      · by_cases hrq : r = q
        · subst hrq
          simp [removeFS, lookupFS, hrp, hqp]
        · simp [removeFS, lookupFS, hrp, hrq, hqp, ih]

theorem lookupFS_insertFS (fs : FS) (p q : FPath) (c : Content) :
    lookupFS (insertFS fs p c) q = if q = p then some c else lookupFS fs q := by
  by_cases h : q = p
  · simp [insertFS, lookupFS, h]
  · simp [insertFS, lookupFS, h, Ne.symm h, lookupFS_removeFS]

theorem lookupFS_mem_keys {fs : FS} {p : FPath} {c : Content}
    (h : lookupFS fs p = some c) : p ∈ keysFS fs := by
  induction fs with
  | nil => simp [lookupFS] at h
  | cons e rest ih =>
    obtain ⟨q, c0⟩ := e
    by_cases hqp : q = p
    · simp [keysFS, hqp]
    · simp only [lookupFS, hqp, if_false] at h
      simp [keysFS] at ih ⊢
      exact Or.inr (ih h)

theorem length_keysFS (fs : FS) : (keysFS fs).length = fs.length := by
  simp [keysFS]

theorem digitVal_digitChar_fin : ∀ d : Fin 10, digitVal (Nat.digitChar d.val) = d.val := by
  decide

theorem digitVal_digitChar {d : Nat} (h : d < 10) : digitVal (Nat.digitChar d) = d :=
  digitVal_digitChar_fin ⟨d, h⟩

theorem toDigitsCore_acc (fuel : Nat) : ∀ (n : Nat) (ds : List Char),
    Nat.toDigitsCore 10 fuel n ds = Nat.toDigitsCore 10 fuel n [] ++ ds := by
  induction fuel with
  | zero => intro n ds; simp [Nat.toDigitsCore]
  | succ fuel ih =>
    intro n ds
    simp only [Nat.toDigitsCore]
    by_cases h : n / 10 = 0
    · simp [h]
    · simp only [h, if_false]
      rw [ih (n / 10) (Nat.digitChar (n % 10) :: ds), ih (n / 10) [Nat.digitChar (n % 10)]]
      simp

theorem digitsVal_append_singleton (l : List Char) (c : Char) :
    digitsVal (l ++ [c]) = 10 * digitsVal l + digitVal c := by
  simp [digitsVal, List.foldl_append]

theorem digitsVal_toDigitsCore : ∀ (n fuel : Nat), n < fuel →
    digitsVal (Nat.toDigitsCore 10 fuel n []) = n := by
  intro n
  induction n using Nat.strong_induction_on with
  | _ n ih =>
    intro fuel h
    match fuel, h with
    | fuel + 1, h =>
      by_cases h0 : n / 10 = 0
      · have hlt : n < 10 := by omega
        simp only [Nat.toDigitsCore, h0, if_true]
        simp [digitsVal, Nat.mod_eq_of_lt hlt, digitVal_digitChar hlt]
      · have hn0 : 0 < n := by
          rcases Nat.eq_zero_or_pos n with h | h
          · exact absurd (by simp [h]) h0
          · exact h
        have hdivlt : n / 10 < n := Nat.div_lt_self hn0 (by norm_num)
        have hdivfuel : n / 10 < fuel := by omega
        simp only [Nat.toDigitsCore, h0, if_false]
        rw [toDigitsCore_acc, digitsVal_append_singleton,
          ih (n / 10) hdivlt fuel hdivfuel,
          digitVal_digitChar (Nat.mod_lt n (by norm_num))]
        omega

theorem natRepr_injective : Function.Injective Nat.repr := by
  intro m n h
  have hdata : Nat.toDigits 10 m = Nat.toDigits 10 n := by
    have := congrArg String.data h
    simpa [Nat.repr, List.asString] using this
  have hm := digitsVal_toDigitsCore m (m + 1) (Nat.lt_succ_self m)
  have hn := digitsVal_toDigitsCore n (n + 1) (Nat.lt_succ_self n)
  simp only [Nat.toDigits] at hdata
  rw [← hm, ← hn, hdata]

theorem string_append_left_cancel {s t u : String} (h : s ++ t = s ++ u) : t = u := by
  apply String.ext
  have hd := congrArg String.data h
  simp only [String.data_append] at hd
  exact List.append_cancel_left hd

theorem candidateName_inj (dest : FPath) {k k' : Nat}
    (h : candidateName dest k = candidateName dest k') : k = k' := by
  have hstem : dest.stem ++ "_" ++ Nat.repr k = dest.stem ++ "_" ++ Nat.repr k' :=
    congrArg FPath.stem h
  exact natRepr_injective (string_append_left_cancel hstem)

theorem findFree_free {fs : FS} {dest : FPath} :
    ∀ {fuel counter : Nat} {p : FPath}, findFree fs dest counter fuel = some p →
      fexists fs p = false := by
  intro fuel
  induction fuel with
  | zero => intro counter p h; simp [findFree] at h
  | succ fuel ih =>
    intro counter p h
    cases hc : fexists fs (candidateName dest counter) with
    | true =>
      simp only [findFree, hc, if_true] at h
      exact ih h
    | false =>
      simp [findFree, hc] at h
      subst h
      exact hc

theorem findFree_shape {fs : FS} {dest : FPath} :
    ∀ {fuel counter : Nat} {p : FPath}, findFree fs dest counter fuel = some p →
      ∃ k, counter ≤ k ∧ p = candidateName dest k := by
  intro fuel
  induction fuel with
  | zero => intro counter p h; simp [findFree] at h
  | succ fuel ih =>
    intro counter p h
    cases hc : fexists fs (candidateName dest counter) with
    | true =>
      simp only [findFree, hc, if_true] at h
      obtain ⟨k, hk, hp⟩ := ih h
      exact ⟨k, by omega, hp⟩
    | false =>
      simp [findFree, hc] at h
      exact ⟨counter, le_refl _, h.symm⟩

/-- The candidates examined by `findFree`, in order. -/
def candList (dest : FPath) (counter fuel : Nat) : List FPath :=
  (List.range fuel).map (fun i => candidateName dest (counter + i))

theorem candList_succ (dest : FPath) (counter fuel : Nat) :
    candList dest counter (fuel + 1) =
      candidateName dest counter :: candList dest (counter + 1) fuel := by
  simp only [candList, List.range_succ_eq_map, List.map_cons, List.map_map]
  congr 1
  apply List.map_congr_left
  intro i _
  simp only [Function.comp_apply, Nat.succ_eq_add_one]
  congr 1
  omega

theorem candList_nodup (dest : FPath) (counter fuel : Nat) :
    (candList dest counter fuel).Nodup := by
  refine List.Nodup.map ?_ (List.nodup_range fuel)
  intro i j hij
  have := candidateName_inj dest hij
  omega

theorem nodup_subset_length {α : Type} [DecidableEq α] {l₁ l₂ : List α}
    (h₁ : l₁.Nodup) (h₂ : ∀ a ∈ l₁, a ∈ l₂) : l₁.length ≤ l₂.length := by
  calc l₁.length = l₁.toFinset.card := (List.toFinset_card_of_nodup h₁).symm
    _ ≤ l₂.toFinset.card :=
        Finset.card_le_card (fun a ha => List.mem_toFinset.2 (h₂ a (List.mem_toFinset.1 ha)))
    _ ≤ l₂.length := List.toFinset_card_le l₂

theorem findFree_isSome_of_bad {fs : FS} {dest : FPath} :
    ∀ {fuel counter : Nat},
      ((candList dest counter fuel).filter (fun p => fexists fs p)).length < fuel →
      (findFree fs dest counter fuel).isSome := by
  intro fuel
  induction fuel with
  | zero => intro counter h; omega
  | succ fuel ih =>
    intro counter h
    by_cases hc : fexists fs (candidateName dest counter)
    · simp only [findFree, hc, if_true]
      apply ih
      rw [candList_succ] at h
      simp only [List.filter_cons, hc, if_true] at h
      simpa using Nat.lt_of_succ_lt_succ (by simpa using h)
    · simp [findFree, hc]

theorem findFree_total (fs : FS) (dest : FPath) (counter : Nat) :
    (findFree fs dest counter (fs.length + 1)).isSome := by
  apply findFree_isSome_of_bad
  have hsub : ∀ p ∈ (candList dest counter (fs.length + 1)).filter (fun p => fexists fs p),
      p ∈ keysFS fs := by
    intro p hp
    have hex : fexists fs p = true := by
      have := List.of_mem_filter hp
      simpa using this
    obtain ⟨c, hc⟩ := Option.isSome_iff_exists.1 (by simpa [fexists] using hex)
    exact lookupFS_mem_keys hc
  have hnd : ((candList dest counter (fs.length + 1)).filter (fun p => fexists fs p)).Nodup :=
    (candList_nodup dest counter (fs.length + 1)).filter _
  have := nodup_subset_length hnd hsub
  rw [length_keysFS] at this
  omega

theorem get_unique_path_free (fs : FS) (destination : FPath) :
    fexists fs (get_unique_path fs destination) = false := by
  by_cases h : fexists fs destination
  · simp only [get_unique_path, h, if_true]
    obtain ⟨p, hp⟩ := Option.isSome_iff_exists.1 (findFree_total fs destination 2)
    rw [hp]
    exact findFree_free hp
  · simp only [get_unique_path, h, if_false]
    simpa using h

theorem get_unique_path_of_free {fs : FS} {destination : FPath}
    (h : fexists fs destination = false) :
    get_unique_path fs destination = destination := by
  simp [get_unique_path, h]

theorem get_unique_path_suffixed {fs : FS} {destination : FPath}
    (h : fexists fs destination = true) :
    ∃ k, 2 ≤ k ∧ get_unique_path fs destination = candidateName destination k := by
  simp only [get_unique_path, h, if_true]
  obtain ⟨p, hp⟩ := Option.isSome_iff_exists.1 (findFree_total fs destination 2)
  rw [hp]
  obtain ⟨k, hk, hpk⟩ := findFree_shape hp
  exact ⟨k, hk, by simpa using hpk⟩

theorem get_unique_filename_free (fs : FS) (dest_folder stem ext : String) :
    fexists fs (get_unique_filename fs dest_folder stem ext) = false := by
  by_cases h : fexists fs (⟨dest_folder, stem, ext⟩ : FPath)
  · simp only [get_unique_filename, h, if_true]
    obtain ⟨p, hp⟩ :=
      Option.isSome_iff_exists.1 (findFree_total fs ⟨dest_folder, stem, ext⟩ 1)
    rw [hp]
    exact findFree_free hp
  · simp only [get_unique_filename, h, if_false]
    simpa using h

theorem get_unique_filename_of_free {fs : FS} {dest_folder stem ext : String}
    (h : fexists fs (⟨dest_folder, stem, ext⟩ : FPath) = false) :
    get_unique_filename fs dest_folder stem ext = ⟨dest_folder, stem, ext⟩ := by
  simp [get_unique_filename, h]

theorem get_unique_filename_dir (fs : FS) (dest_folder stem ext : String) :
    (get_unique_filename fs dest_folder stem ext).dir = dest_folder := by
  by_cases h : fexists fs (⟨dest_folder, stem, ext⟩ : FPath)
  · simp only [get_unique_filename, h, if_true]
    obtain ⟨p, hp⟩ :=
      Option.isSome_iff_exists.1 (findFree_total fs ⟨dest_folder, stem, ext⟩ 1)
    rw [hp]
    obtain ⟨k, _, hpk⟩ := findFree_shape hp
    simp [hpk, candidateName]
  · simp [get_unique_filename, h]

theorem categorize_loop_some :
    ∀ (cats : List CatConfig) (fnU txtU : String) (nt : Bool) (cid : String) (conf : Nat),
      categorize_loop fnU txtU nt cats = (some cid, conf) →
      ∃ c ∈ cats, c.id = cid ∧
        (catFilenameMatch fnU c || catContentMatch txtU c) = true ∧
        conf = (if catFilenameMatch fnU c && catContentMatch txtU c then 95
                else if catFilenameMatch fnU c && nt then 75
                else 85) := by
  intro cats
  induction cats with
  | nil => intro fnU txtU nt cid conf h; simp [categorize_loop] at h
  | cons c rest ih =>
    intro fnU txtU nt cid conf h
    by_cases hexcl : c.exclude_patterns.any (fun p =>
        containsStr fnU p || (! pyIsEmpty txtU && containsStr txtU p)) = true
    · rw [categorize_loop, if_pos hexcl] at h
      obtain ⟨c2, hmem, hprop⟩ := ih fnU txtU nt cid conf h
      exact ⟨c2, List.mem_cons_of_mem c hmem, hprop⟩
    · rw [categorize_loop, if_neg hexcl] at h
      by_cases hmatch : (catFilenameMatch fnU c || catContentMatch txtU c) = true
      · rw [if_pos hmatch] at h
        rw [Prod.mk.injEq, Option.some.injEq] at h
        exact ⟨c, List.mem_cons_self _ _, h.1, hmatch, h.2.symm⟩
      · rw [if_neg hmatch] at h
        obtain ⟨c2, hmem, hprop⟩ := ih fnU txtU nt cid conf h
        exact ⟨c2, List.mem_cons_of_mem c hmem, hprop⟩

theorem categorize_loop_none :
    ∀ (cats : List CatConfig) (fnU txtU : String) (nt : Bool) (conf : Nat),
      categorize_loop fnU txtU nt cats = (none, conf) → conf = 0 := by
  intro cats
  induction cats with
  | nil =>
    intro fnU txtU nt conf h
    rw [categorize_loop, Prod.mk.injEq] at h
    exact h.2.symm
  | cons c rest ih =>
    intro fnU txtU nt conf h
    by_cases hexcl : c.exclude_patterns.any (fun p =>
        containsStr fnU p || (! pyIsEmpty txtU && containsStr txtU p)) = true
    · rw [categorize_loop, if_pos hexcl] at h
      exact ih fnU txtU nt conf h
    · rw [categorize_loop, if_neg hexcl] at h
      by_cases hmatch : (catFilenameMatch fnU c || catContentMatch txtU c) = true
      · rw [if_pos hmatch, Prod.mk.injEq] at h
        exact absurd h.1 (by simp)
      · rw [if_neg hmatch] at h
        exact ih fnU txtU nt conf h

/-- C3: if any phrase of the global exclusion list occurs in the upper-cased
filename or in the upper-cased readable content, categorize_document
returns no category with confidence 0, regardless of any category match;
in particular a filename containing both receipt and proposal is left
uncategorized, not classified as Receipts. -/
theorem C3_global_exclusion_veto :
    (∀ filename text : String,
      (∃ e ∈ GLOBAL_EXCLUSIONS,
        containsStr (pyUpper filename) e = true ∨
          (pyIsEmpty (catTextUpper text) = false ∧
            containsStr (catTextUpper text) e = true)) →
      categorize_document filename text = (none, 0)) ∧
    categorize_document "receipt proposal.pdf" "" = (none, 0) := by
  constructor
  · intro filename text h
    obtain ⟨e, hmem, hcase⟩ := h
    have hany : GLOBAL_EXCLUSIONS.any (fun e =>
        containsStr (pyUpper filename) e ||
          (! pyIsEmpty (catTextUpper text) && containsStr (catTextUpper text) e)) = true := by
      rw [List.any_eq_true]
      refine ⟨e, hmem, ?_⟩
      rcases hcase with hfn | ⟨hne, htxt⟩
      · simp [hfn]
      · simp [hne, htxt]
    simp only [categorize_document]
    rw [if_pos hany]
  · decide

/-- C6: for every matching topic classification the confidence is exactly
95 when both a filename pattern and a content pattern match, 75 when a
filename pattern matches but the content could not be read at all, and 85
otherwise; and the caller discards any result whose confidence is below
75. -/
theorem C6_confidence_computation :
    (∀ (filename text : String) (cid : String) (conf : Nat),
      categorize_document filename text = (some cid, conf) →
      ∃ c ∈ DOCUMENT_CATEGORIES, c.id = cid ∧
        conf = (if catFilenameMatch (pyUpper filename) c &&
                   catContentMatch (catTextUpper text) c then 95
                else if catFilenameMatch (pyUpper filename) c && catNoText text then 75
                else 85)) ∧
    (∀ (category_id : Option String) (confidence : Nat),
      confidence < 75 → general_confidence_gate category_id confidence = none) := by
  constructor
  · intro filename text cid conf h
    simp only [categorize_document] at h
    by_cases hany : GLOBAL_EXCLUSIONS.any (fun e =>
        containsStr (pyUpper filename) e ||
          (! pyIsEmpty (catTextUpper text) && containsStr (catTextUpper text) e)) = true
    · rw [if_pos hany, Prod.mk.injEq] at h
      exact absurd h.1 (by simp)
    · rw [if_neg hany] at h
      obtain ⟨c, hmem, hid, _, hconf⟩ := categorize_loop_some _ _ _ _ _ _ h
      exact ⟨c, hmem, hid, hconf⟩
  · intro category_id confidence h
    simp [general_confidence_gate, h]

/-- C10: the confidence returned by categorize_document is always one of
0, 75, 85, 95; every result with a category has confidence at least 75,
so the below-75 rejection branch of the caller never discards a result
that carries a category. -/
theorem C10_confidence_invariant :
    ∀ (filename text : String),
      ((categorize_document filename text).2 = 0 ∨
       (categorize_document filename text).2 = 75 ∨
       (categorize_document filename text).2 = 85 ∨
       (categorize_document filename text).2 = 95) ∧
      ((categorize_document filename text).1.isSome = true →
        75 ≤ (categorize_document filename text).2 ∧
        general_confidence_gate (categorize_document filename text).1
            (categorize_document filename text).2 =
          (categorize_document filename text).1) := by
  intro filename text
  rcases hres : categorize_document filename text with ⟨o, conf⟩
  rcases o with _ | cid
  · have h0 : conf = 0 := by
      simp only [categorize_document] at hres
      by_cases hany : GLOBAL_EXCLUSIONS.any (fun e =>
          containsStr (pyUpper filename) e ||
            (! pyIsEmpty (catTextUpper text) && containsStr (catTextUpper text) e)) = true
      · rw [if_pos hany, Prod.mk.injEq] at hres
        exact hres.2.symm
      · rw [if_neg hany] at hres
        exact categorize_loop_none _ _ _ _ _ hres
    subst h0
    simp
  · have hsome : ∃ c ∈ DOCUMENT_CATEGORIES, c.id = cid ∧
        conf = (if catFilenameMatch (pyUpper filename) c &&
                   catContentMatch (catTextUpper text) c then 95
                else if catFilenameMatch (pyUpper filename) c && catNoText text then 75
                else 85) := by
      simp only [categorize_document] at hres
      by_cases hany : GLOBAL_EXCLUSIONS.any (fun e =>
          containsStr (pyUpper filename) e ||
            (! pyIsEmpty (catTextUpper text) && containsStr (catTextUpper text) e)) = true
      · rw [if_pos hany, Prod.mk.injEq] at hres
        exact absurd hres.1 (by simp)
      · rw [if_neg hany] at hres
        obtain ⟨c, hmem, hid, _, hconf⟩ := categorize_loop_some _ _ _ _ _ _ hres
        exact ⟨c, hmem, hid, hconf⟩
    obtain ⟨c, _, _, hconf⟩ := hsome
    have hset : conf = 75 ∨ conf = 85 ∨ conf = 95 := by
      rw [hconf]
      split
      · right; right; rfl
      · split
        · left; rfl
        · right; left; rfl
    have h75 : 75 ≤ conf := by rcases hset with h | h | h <;> omega
    refine ⟨by tauto, fun _ => ⟨h75, ?_⟩⟩
    simp [general_confidence_gate, Nat.not_lt.2 h75]

/-- Witness for C3: a filename containing the NIKE exclusion is vetoed even
though the Receipts filename pattern also matches. -/
theorem C3_global_exclusion_veto_witness :
    categorize_document "nike receipt.pdf" "" = (none, 0) :=
  C3_global_exclusion_veto.1 "nike receipt.pdf" ""
    ⟨"NIKE", by decide, Or.inl (by decide)⟩

/-- Witness for C6: a pure filename match with unreadable content gets
confidence 75, and confidence 74 would be rejected by the gate. -/
theorem C6_confidence_computation_witness :
    (∃ c ∈ DOCUMENT_CATEGORIES, c.id = "RECEIPTS" ∧
      (75 : Nat) = (if catFilenameMatch (pyUpper "receipt.pdf") c &&
                 catContentMatch (catTextUpper "") c then 95
              else if catFilenameMatch (pyUpper "receipt.pdf") c && catNoText "" then 75
              else 85)) ∧
    general_confidence_gate (some "RECEIPTS") 74 = none :=
  ⟨C6_confidence_computation.1 "receipt.pdf" "" "RECEIPTS" 75 (by decide),
   C6_confidence_computation.2 (some "RECEIPTS") 74 (by decide)⟩

/-- Witness for C10: a categorized result (Medical via filename, unreadable
content) has confidence at least 75 and passes the gate unchanged. -/
theorem C10_confidence_invariant_witness :
    75 ≤ (categorize_document "eob.pdf" "").2 ∧
    general_confidence_gate (categorize_document "eob.pdf" "").1
        (categorize_document "eob.pdf" "").2 =
      (categorize_document "eob.pdf" "").1 :=
  (C10_confidence_invariant "eob.pdf" "").2 (by decide)

/-- C7: detect_document_type never returns the VANGUARD_TAX_FORMS or
FIDELITY_1099 kind when the corresponding account-number extraction
function returns no account from the (upper-cased) content: failed
identity extraction invalidates an otherwise-matching kind. -/
theorem C7_identity_extraction_required :
    ∀ (ev ef : String → Option String) (filename text : String)
      (idt : String) (cfg : DocTypeConfig),
      detect_document_type ev ef filename text = some (idt, cfg) →
      (idt = "VANGUARD_TAX_FORMS" → (ev (detectTextUpper text)).isSome = true) ∧
      (idt = "FIDELITY_1099" → (ef (detectTextUpper text)).isSome = true) := by
  intro ev ef filename text idt cfg h
  simp only [detect_document_type, Option.map_eq_some'] at h
  obtain ⟨t, hfind, hpair⟩ := h
  have hpass : detectPass ev ef (pyUpper filename) (detectTextUpper text) t = true :=
    List.find?_some hfind
  have hid : t.id = idt := congrArg Prod.fst hpair
  unfold detectPass at hpass
  rw [Bool.and_eq_true, Bool.and_eq_true, Bool.and_eq_true, Bool.and_eq_true,
    Bool.and_eq_true] at hpass
  obtain ⟨⟨⟨⟨⟨hA, hC⟩, hV⟩, hF⟩, hS⟩, hB⟩ := hpass
  constructor
  · intro hvan
    rw [hvan] at hid
    cases hev : ev (detectTextUpper text) with
    | some v => simp
    | none =>
      exfalso
      have hvr : vanguardReject ev (pyUpper filename) (detectTextUpper text) t = true := by
        rw [vanguardReject, hid, hev, hB]
        simp
      rw [hvr] at hV
      exact Bool.noConfusion hV
  · intro hfid
    rw [hfid] at hid
    cases hef : ef (detectTextUpper text) with
    | some v => simp
    | none =>
      exfalso
      have hfr : fidelityReject ef (pyUpper filename) (detectTextUpper text) t = true := by
        rw [fidelityReject, hid, hef, hB]
        simp
      rw [hfr] at hF
      exact Bool.noConfusion hF

/-- Witness for C7: with a succeeding Vanguard extractor, a Vanguard 1099
document is detected, and the theorem yields that the extractor succeeded
on the upper-cased content. -/
theorem C7_identity_extraction_required_witness :
    (((fun _ : String => some "00000000") : String → Option String)
        (detectTextUpper "VANGUARD FORM 1099")).isSome = true :=
  (C7_identity_extraction_required (fun _ => some "00000000") (fun _ => none)
      "x.pdf" "VANGUARD FORM 1099" "VANGUARD_TAX_FORMS"
      ⟨"VANGUARD_TAX_FORMS", "Vanguard Brokerage",
        ["VANGUARD", "1099", "5498", "BROKERAGE"],
        ["VANGUARD", "FORM 1099", "FORM 5498", "VANGUARD BROKERAGE SERVICES"],
        some "account_extraction"⟩
      (by decide)).1 rfl

/-- C4: get_media_date consults its sources strictly in rank order:
Facebook HTML index, then Facebook sidecar JSON, then the EXIF date fields
in their fixed preference order, then file modification time, then the
current time; the first source that succeeds is returned, so a sidecar
date beats any embedded-metadata date. -/
theorem C4_provenance_order :
    ∀ (env : MediaEnv) (parse : String → Option Nat) (filename : String)
      (metadataArg : Option (List (String × String))),
      (∀ r, extract_facebook_html_date env filename = some r →
        get_media_date env parse filename metadataArg = r) ∧
      (extract_facebook_html_date env filename = none →
        ∀ r, env.sidecar = some r →
          get_media_date env parse filename metadataArg = r) ∧
      (extract_facebook_html_date env filename = none → env.sidecar = none →
        ∀ r, exifStage env parse metadataArg = some r →
          get_media_date env parse filename metadataArg = r) ∧
      (extract_facebook_html_date env filename = none → env.sidecar = none →
        exifStage env parse metadataArg = none →
        ∀ t, env.mtime = some t →
          get_media_date env parse filename metadataArg = (t, "file modification time")) ∧
      (extract_facebook_html_date env filename = none → env.sidecar = none →
        exifStage env parse metadataArg = none → env.mtime = none →
        get_media_date env parse filename metadataArg =
          (env.now, "current date (fallback)")) ∧
      (extract_facebook_html_date env filename = none →
        ∀ d m, env.sidecar = some (d, m) →
          (get_media_date env parse filename metadataArg).1 = d) := by
  intro env parse filename metadataArg
  refine ⟨?_, ?_, ?_, ?_, ?_, ?_⟩
  · intro r h
    simp [get_media_date, h]
  · intro h1 r h2
    simp [get_media_date, h1, h2]
  · intro h1 h2 r h3
    simp [get_media_date, h1, h2, h3]
  · intro h1 h2 h3 t h4
    simp [get_media_date, h1, h2, h3, h4]
  · intro h1 h2 h3 h4
    simp [get_media_date, h1, h2, h3, h4]
  · intro h1 d m h2
    simp [get_media_date, h1, h2]

/-- Witness for C4: HTML lookup empty, sidecar date 5 present, metadata
carrying a parsable EXIF date 7: the sidecar date is returned. -/
theorem C4_provenance_order_witness :
    get_media_date
        ⟨[], some (5, "facebook sidecar: creation_timestamp"),
          [("DateTimeOriginal", "2020:01:01 00:00:00")], some 99, 123⟩
        (fun _ => some 7) "p.jpg" none =
      (5, "facebook sidecar: creation_timestamp") :=
  (C4_provenance_order
      ⟨[], some (5, "facebook sidecar: creation_timestamp"),
        [("DateTimeOriginal", "2020:01:01 00:00:00")], some 99, 123⟩
      (fun _ => some 7) "p.jpg" none).2.1 rfl
    (5, "facebook sidecar: creation_timestamp") rfl

/-- C8: the audit pass never relocates a file whose computed correct
destination path already exists: identical or different in content, the
file is skipped in place, with no move, no deletion and no
collision-suffix renaming. -/
theorem C8_audit_skips_occupied :
    ∀ (fs : FS) (pdf_file : FPath) (correct_folder correct_stem correct_ext : String)
      (dry_run : Bool),
      fexists fs ⟨correct_folder, correct_stem, correct_ext⟩ = true →
      audit_relocate fs pdf_file correct_folder correct_stem correct_ext dry_run =
        (fs, false) := by
  intro fs pdf_file correct_folder correct_stem correct_ext dry_run h
  by_cases h1 : pdf_file = (⟨correct_folder, correct_stem, correct_ext⟩ : FPath)
  · simp [audit_relocate, h1]
  · by_cases h2 : pdf_file.dir = correct_folder
    · simp [audit_relocate, h1, h2]
    · simp [audit_relocate, h1, h2, h]

/-- Witness for C8: a misplaced statement whose correct destination is
occupied by a file with different content is left in place. -/
theorem C8_audit_skips_occupied_witness :
    audit_relocate
        [(⟨"Inbox", "stmt", ".pdf"⟩, [1, 2]), (⟨"Taxes", "01_01_2020 - 7063", ".pdf"⟩, [3])]
        ⟨"Inbox", "stmt", ".pdf"⟩ "Taxes" "01_01_2020 - 7063" ".pdf" false =
      ([(⟨"Inbox", "stmt", ".pdf"⟩, [1, 2]),
        (⟨"Taxes", "01_01_2020 - 7063", ".pdf"⟩, [3])], false) :=
  C8_audit_skips_occupied
    [(⟨"Inbox", "stmt", ".pdf"⟩, [1, 2]), (⟨"Taxes", "01_01_2020 - 7063", ".pdf"⟩, [3])]
    ⟨"Inbox", "stmt", ".pdf"⟩ "Taxes" "01_01_2020 - 7063" ".pdf" false (by decide)

/-- C9: when a dispatch for a kind is admitted at time t1 and a second
trigger for the same kind arrives at t2 with t2 - t1 below
MIN_RUN_INTERVAL, the second trigger is dropped: the organizer is not
invoked again and the last-dispatch timestamp is not updated, so exactly
one pipeline invocation results. -/
theorem C9_throttle_drops_second :
    ∀ (st : ThrottleState) (kind : OrganizerKind) (t1 t2 : Int),
      (run_organizer_gate st kind t1).2 = true →
      t2 - t1 < MIN_RUN_INTERVAL →
      run_organizer_gate (run_organizer_gate st kind t1).1 kind t2 =
        ((run_organizer_gate st kind t1).1, false) := by
  intro st kind t1 t2 h1 h2
  cases kind with
  | pdf =>
    by_cases hc : t1 - st.last_pdf_run < MIN_RUN_INTERVAL
    · simp [run_organizer_gate, hc] at h1
    · simp only [run_organizer_gate, hc, if_false, if_neg hc] at h1 ⊢
      rw [if_pos h2]
  | media =>
    by_cases hc : t1 - st.last_media_run < MIN_RUN_INTERVAL
    · simp [run_organizer_gate, hc] at h1
    · simp only [run_organizer_gate, hc, if_false, if_neg hc] at h1 ⊢
      rw [if_pos h2]

/-- Witness for C9: an admitted pdf dispatch at time 100 followed by a
trigger at time 105 leaves the state unchanged and does not invoke. -/
theorem C9_throttle_drops_second_witness :
    run_organizer_gate (run_organizer_gate ⟨0, 0⟩ OrganizerKind.pdf 100).1
        OrganizerKind.pdf 105 =
      ((run_organizer_gate ⟨0, 0⟩ OrganizerKind.pdf 100).1, false) :=
  C9_throttle_drops_second ⟨0, 0⟩ OrganizerKind.pdf 100 105 (by decide) (by decide)

/-- C1 counterexample: in the copy-then-delete branch of organize_file,
when the copy is truncated (source bytes [1, 2], destination received
[9]), verification fails (status error) yet the partial destination copy
is retained, contradicting the claim that any verification failure
removes the partial destination copy. -/
theorem C1_counterexample :
    (organize_file_move [(⟨"Downloads", "a", ".jpg"⟩, [1, 2])] ⟨"Downloads", "a", ".jpg"⟩
        "Media" "n" ".jpg" [9] false true).status = OrgStatus.error ∧
    lookupFS
        (organize_file_move [(⟨"Downloads", "a", ".jpg"⟩, [1, 2])] ⟨"Downloads", "a", ".jpg"⟩
          "Media" "n" ".jpg" [9] false true).fs
        ⟨"Media", "n", ".jpg"⟩ = some [9] := by
  constructor
  · decide
  · decide

/-- C1 (amended): utils.safe_move with verification behaves as claimed:
on verification failure the partial destination copy is removed and the
source is left unmodified; on success the destination holds the source
content and the source is removed.  The copy-then-delete branch of
organize_file, however, verifies sizes only: on failure the source is
left unmodified but the partial destination copy is retained (not
removed); on success the source is removed and the destination holds the
copied bytes, which are only guaranteed to have the source's size. -/
theorem C1_move_atomicity_amended :
    (∀ (fs : FS) (source destination : FPath) (c copied : Content),
      source ≠ destination → lookupFS fs source = some c →
      ((safe_move fs source destination copied true).2 = false →
        lookupFS (safe_move fs source destination copied true).1 source = some c ∧
        lookupFS (safe_move fs source destination copied true).1 destination = none) ∧
      ((safe_move fs source destination copied true).2 = true →
        lookupFS (safe_move fs source destination copied true).1 destination = some c ∧
        lookupFS (safe_move fs source destination copied true).1 source = none)) ∧
    (∀ (fs : FS) (file_path : FPath) (dest_folder new_stem new_ext : String)
        (c copied : Content),
      lookupFS fs file_path = some c →
      ((organize_file_move fs file_path dest_folder new_stem new_ext copied
          false true).status = OrgStatus.error →
        lookupFS (organize_file_move fs file_path dest_folder new_stem new_ext copied
            false true).fs file_path = some c ∧
        lookupFS (organize_file_move fs file_path dest_folder new_stem new_ext copied
            false true).fs (get_unique_filename fs dest_folder new_stem new_ext) =
          some copied) ∧
      ((organize_file_move fs file_path dest_folder new_stem new_ext copied
          false true).status = OrgStatus.moved →
        lookupFS (organize_file_move fs file_path dest_folder new_stem new_ext copied
            false true).fs (get_unique_filename fs dest_folder new_stem new_ext) =
          some copied ∧
        copied.length = c.length ∧
        lookupFS (organize_file_move fs file_path dest_folder new_stem new_ext copied
            false true).fs file_path = none)) := by
  constructor
  · intro fs source destination c copied hne hsrc
    have hex : fexists fs source = true := by simp [fexists, hsrc]
    have hsrc1 : lookupFS (insertFS fs destination copied) source = some c := by
      rw [lookupFS_insertFS, if_neg hne]
      exact hsrc
    have hdst1 : lookupFS (insertFS fs destination copied) destination = some copied := by
      rw [lookupFS_insertFS, if_pos rfl]
    by_cases hcc : c = copied
    · have hident : files_are_identical (insertFS fs destination copied)
          source destination = true := by
        rw [files_are_identical, hsrc1, hdst1]
        subst hcc
        simp [get_file_checksum]
      rw [safe_move]
      rw [if_neg (by simp [hex]), if_neg (by simp [hident])]
      refine ⟨by simp, fun _ => ⟨?_, ?_⟩⟩
      · rw [lookupFS_removeFS, if_neg (Ne.symm hne), hdst1, hcc]
      · rw [lookupFS_removeFS, if_pos rfl]
    · have hident : files_are_identical (insertFS fs destination copied)
          source destination = false := by
        rw [files_are_identical, hsrc1, hdst1]
        by_cases hlen : c.length = copied.length
        · simp [hlen, get_file_checksum, hcc]
        · simp [hlen]
      rw [safe_move]
      rw [if_neg (by simp [hex]), if_pos (by simp [hident])]
      refine ⟨fun _ => ⟨?_, ?_⟩, by simp⟩
      · rw [lookupFS_removeFS, if_neg hne, hsrc1]
      · rw [lookupFS_removeFS, if_pos rfl]
  · intro fs file_path dest_folder new_stem new_ext c copied hsrc
    by_cases h1 : file_path = get_unique_filename fs dest_folder new_stem new_ext
    · rw [organize_file_move, if_pos h1]
      exact ⟨by simp, by simp⟩
    · rw [organize_file_move, if_neg h1]
      by_cases hdup : (fexists fs (get_unique_filename fs dest_folder new_stem new_ext) &&
          fexists fs file_path &&
          (match get_md5 fs file_path,
              get_md5 fs (get_unique_filename fs dest_folder new_stem new_ext) with
           | some source_hash, some dest_hash => decide (source_hash = dest_hash)
           | _, _ => false)) = true
      · rw [if_pos hdup]
        exact ⟨by simp, by simp⟩
      · rw [if_neg hdup, if_neg (show ¬ ((false : Bool) = true) by simp),
          if_pos (show (true : Bool) = true from rfl)]
        simp only [hsrc]
        have hdst1 : lookupFS
            (insertFS fs (get_unique_filename fs dest_folder new_stem new_ext) copied)
            (get_unique_filename fs dest_folder new_stem new_ext) = some copied := by
          rw [lookupFS_insertFS, if_pos rfl]
        have hsrc1 : lookupFS
            (insertFS fs (get_unique_filename fs dest_folder new_stem new_ext) copied)
            file_path = some c := by
          rw [lookupFS_insertFS, if_neg h1, hsrc]
        by_cases hlen : copied.length = c.length
        · rw [if_pos (by simp [fexists, hdst1, hlen])]
          refine ⟨by simp, fun _ => ⟨?_, hlen, ?_⟩⟩
          · rw [lookupFS_removeFS, if_neg (Ne.symm h1), hdst1]
          · rw [lookupFS_removeFS, if_pos rfl]
        · rw [if_neg ?hcond]
          case hcond =>
            simp only [Bool.and_eq_true, decide_eq_true_eq]
            rintro ⟨-, h⟩
            exact hlen h
          exact ⟨fun _ => ⟨hsrc1, hdst1⟩, by simp⟩

/-- Witness for C1 (amended): a corrupted safe_move copy is rolled back
with the source intact, and a faithful organize_file copy-then-delete
relocation leaves the destination with the source bytes and removes the
source. -/
theorem C1_move_atomicity_amended_witness :
    (lookupFS (safe_move [(⟨"Downloads", "a", ".jpg"⟩, [1, 2])] ⟨"Downloads", "a", ".jpg"⟩
        ⟨"Media", "b", ".jpg"⟩ [9] true).1 ⟨"Downloads", "a", ".jpg"⟩ = some [1, 2] ∧
      lookupFS (safe_move [(⟨"Downloads", "a", ".jpg"⟩, [1, 2])] ⟨"Downloads", "a", ".jpg"⟩
        ⟨"Media", "b", ".jpg"⟩ [9] true).1 ⟨"Media", "b", ".jpg"⟩ = none) ∧
    (lookupFS (organize_file_move [(⟨"Downloads", "a", ".jpg"⟩, [1, 2])]
          ⟨"Downloads", "a", ".jpg"⟩ "Media" "n" ".jpg" [1, 2] false true).fs
        (get_unique_filename [(⟨"Downloads", "a", ".jpg"⟩, [1, 2])] "Media" "n" ".jpg") =
        some [1, 2] ∧
      ([1, 2] : Content).length = ([1, 2] : Content).length ∧
      lookupFS (organize_file_move [(⟨"Downloads", "a", ".jpg"⟩, [1, 2])]
          ⟨"Downloads", "a", ".jpg"⟩ "Media" "n" ".jpg" [1, 2] false true).fs
        ⟨"Downloads", "a", ".jpg"⟩ = none) :=
  ⟨(C1_move_atomicity_amended.1 [(⟨"Downloads", "a", ".jpg"⟩, [1, 2])]
      ⟨"Downloads", "a", ".jpg"⟩ ⟨"Media", "b", ".jpg"⟩ [1, 2] [9]
      (by decide) (by decide)).1 (by decide),
   (C1_move_atomicity_amended.2 [(⟨"Downloads", "a", ".jpg"⟩, [1, 2])]
      ⟨"Downloads", "a", ".jpg"⟩ "Media" "n" ".jpg" [1, 2] [1, 2] (by decide)).2
     (by decide)⟩

/-- C2 (evaluation at the failing input): a source file whose byte
identical content is already present at its computed destination path is
not reported as a duplicate: because get_unique_filename runs before the
MD5 duplicate check, the check can never fire, and the file is relocated
to a suffixed name, creating a second identical copy. -/
theorem C2_duplicate_relocated_not_skipped :
    (organize_file_move [(⟨"Downloads", "a", ".jpg"⟩, [1, 2]), (⟨"Media", "n", ".jpg"⟩, [1, 2])]
        ⟨"Downloads", "a", ".jpg"⟩ "Media" "n" ".jpg" [1, 2] false true).status =
      OrgStatus.moved ∧
    (organize_file_move [(⟨"Downloads", "a", ".jpg"⟩, [1, 2]), (⟨"Media", "n", ".jpg"⟩, [1, 2])]
        ⟨"Downloads", "a", ".jpg"⟩ "Media" "n" ".jpg" [1, 2] false true).to_path =
      some ⟨"Media", "n_1", ".jpg"⟩ ∧
    lookupFS
        (organize_file_move [(⟨"Downloads", "a", ".jpg"⟩, [1, 2]),
            (⟨"Media", "n", ".jpg"⟩, [1, 2])]
          ⟨"Downloads", "a", ".jpg"⟩ "Media" "n" ".jpg" [1, 2] false true).fs
        ⟨"Media", "n_1", ".jpg"⟩ = some [1, 2] ∧
    lookupFS
        (organize_file_move [(⟨"Downloads", "a", ".jpg"⟩, [1, 2]),
            (⟨"Media", "n", ".jpg"⟩, [1, 2])]
          ⟨"Downloads", "a", ".jpg"⟩ "Media" "n" ".jpg" [1, 2] false true).fs
        ⟨"Media", "n", ".jpg"⟩ = some [1, 2] ∧
    lookupFS
        (organize_file_move [(⟨"Downloads", "a", ".jpg"⟩, [1, 2]),
            (⟨"Media", "n", ".jpg"⟩, [1, 2])]
          ⟨"Downloads", "a", ".jpg"⟩ "Media" "n" ".jpg" [1, 2] false true).fs
        ⟨"Downloads", "a", ".jpg"⟩ = none := by
  refine ⟨by decide, by decide, by decide, by decide, by decide⟩

theorem lookupFS_eq_none_of_not_fexists {fs : FS} {p : FPath}
    (h : fexists fs p = false) : lookupFS fs p = none := by
  cases hl : lookupFS fs p with
  | none => rfl
  | some c => rw [fexists, hl] at h; simp at h

/-- A single organize_file relocation with a faithful copy, of a source
that sits outside the destination folder: the file is moved to the fresh
collision-resolved path. -/
theorem organize_step_spec (fs : FS) (s : FPath) (folder stem ext : String) (c : Content)
    (hdir : s.dir ≠ folder) (hs : lookupFS fs s = some c) :
    organize_file_move fs s folder stem ext c false true =
      ⟨removeFS (insertFS fs (get_unique_filename fs folder stem ext) c) s,
        OrgStatus.moved, some (get_unique_filename fs folder stem ext), none⟩ := by
  have hne : s ≠ get_unique_filename fs folder stem ext := by
    intro heq
    apply hdir
    rw [heq, get_unique_filename_dir]
  have hfree : fexists fs (get_unique_filename fs folder stem ext) = false :=
    get_unique_filename_free fs folder stem ext
  rw [organize_file_move, if_neg hne, if_neg (by simp [hfree]),
    if_neg (show ¬ ((false : Bool) = true) by simp),
    if_pos (show (true : Bool) = true from rfl)]
  simp only [hs]
  rw [if_pos (by simp [fexists, lookupFS_insertFS])]

theorem relocate_all_spec (folder stem ext : String) :
    ∀ (srcs : List FPath) (fs : FS),
      srcs.Nodup →
      (∀ s ∈ srcs, s.dir ≠ folder) →
      (∀ s ∈ srcs, (lookupFS fs s).isSome = true) →
      (relocate_all folder stem ext fs srcs).2.Nodup ∧
      (∀ d ∈ (relocate_all folder stem ext fs srcs).2,
        d.dir = folder ∧ lookupFS fs d = none) ∧
      (∀ pr ∈ srcs.zip (relocate_all folder stem ext fs srcs).2,
        lookupFS (relocate_all folder stem ext fs srcs).1 pr.2 = lookupFS fs pr.1) ∧
      (∀ p : FPath, (lookupFS fs p).isSome = true → p ∉ srcs →
        lookupFS (relocate_all folder stem ext fs srcs).1 p = lookupFS fs p) := by
  intro srcs
  induction srcs with
  | nil =>
    intro fs _ _ _
    refine ⟨by simp [relocate_all], by simp [relocate_all], by simp [relocate_all],
      fun p _ _ => by simp [relocate_all]⟩
  | cons s rest ih =>
    intro fs hnd hdirs hex
    obtain ⟨c, hc⟩ := Option.isSome_iff_exists.1 (hex s (List.mem_cons_self _ _))
    rw [List.nodup_cons] at hnd
    have hsdir : s.dir ≠ folder := hdirs s (List.mem_cons_self _ _)
    have hstep := organize_step_spec fs s folder stem ext c hsdir hc
    have hd0dir : (get_unique_filename fs folder stem ext).dir = folder :=
      get_unique_filename_dir fs folder stem ext
    have hd0free : lookupFS fs (get_unique_filename fs folder stem ext) = none :=
      lookupFS_eq_none_of_not_fexists (get_unique_filename_free fs folder stem ext)
    have hsd0 : get_unique_filename fs folder stem ext ≠ s := by
      intro heq
      exact hsdir (heq ▸ hd0dir)
    have hfs1 : ∀ q : FPath,
        lookupFS (removeFS (insertFS fs (get_unique_filename fs folder stem ext) c) s) q =
          if q = s then none
          else if q = get_unique_filename fs folder stem ext then some c
          else lookupFS fs q := by
      intro q
      rw [lookupFS_removeFS, lookupFS_insertFS]
    -- paths that exist in fs are distinct from the fresh destination
    have hne_d0 : ∀ q : FPath, (lookupFS fs q).isSome = true →
        q ≠ get_unique_filename fs folder stem ext := by
      intro q hq heq
      rw [heq, hd0free] at hq
      simp at hq
    -- the tail hypotheses transfer to the filesystem after the first move
    have hex1 : ∀ s2 ∈ rest,
        (lookupFS (removeFS (insertFS fs (get_unique_filename fs folder stem ext) c) s) s2).isSome
          = true := by
      intro s2 hs2
      rw [hfs1 s2, if_neg (fun h : s2 = s => hnd.1 (h ▸ hs2)),
        if_neg (hne_d0 s2 (hex s2 (List.mem_cons_of_mem _ hs2)))]
      exact hex s2 (List.mem_cons_of_mem _ hs2)
    have IH := ih (removeFS (insertFS fs (get_unique_filename fs folder stem ext) c) s)
      hnd.2 (fun s2 hs2 => hdirs s2 (List.mem_cons_of_mem _ hs2)) hex1
    obtain ⟨ndR, dpropR, zipR, frameR⟩ := IH
    have hunf : relocate_all folder stem ext fs (s :: rest) =
        ((relocate_all folder stem ext
            (removeFS (insertFS fs (get_unique_filename fs folder stem ext) c) s) rest).1,
          get_unique_filename fs folder stem ext ::
            (relocate_all folder stem ext
              (removeFS (insertFS fs (get_unique_filename fs folder stem ext) c) s) rest).2) := by
      simp only [relocate_all, hc, Option.getD_some, hstep]
    rw [hunf]
    have hlk_d0 : lookupFS
        (removeFS (insertFS fs (get_unique_filename fs folder stem ext) c) s)
        (get_unique_filename fs folder stem ext) = some c := by
      rw [hfs1, if_neg hsd0, if_pos rfl]
    have hd0_notin_ds : get_unique_filename fs folder stem ext ∉
        (relocate_all folder stem ext
          (removeFS (insertFS fs (get_unique_filename fs folder stem ext) c) s) rest).2 := by
      intro hmem
      have := (dpropR _ hmem).2
      rw [hlk_d0] at this
      exact Option.noConfusion this
    have hd0_notin_rest : get_unique_filename fs folder stem ext ∉ rest := by
      intro hmem
      exact hdirs _ (List.mem_cons_of_mem _ hmem) hd0dir
    refine ⟨?_, ?_, ?_, ?_⟩
    · exact List.nodup_cons.2 ⟨hd0_notin_ds, ndR⟩
    · intro d hd
      rcases List.mem_cons.1 hd with rfl | hd
      · exact ⟨hd0dir, hd0free⟩
      · obtain ⟨hdir2, hnone2⟩ := dpropR d hd
        refine ⟨hdir2, ?_⟩
        rw [hfs1 d] at hnone2
        by_cases hds : d = s
        · exact absurd (hds ▸ hdir2) hsdir
        · rw [if_neg hds] at hnone2
          by_cases hdd0 : d = get_unique_filename fs folder stem ext
          · rw [if_pos hdd0] at hnone2
            exact Option.noConfusion hnone2
          · rwa [if_neg hdd0] at hnone2
    · intro pr hpr
      rw [List.zip_cons_cons] at hpr
      rcases List.mem_cons.1 hpr with rfl | hpr
      · have := frameR (get_unique_filename fs folder stem ext)
          (by rw [hlk_d0]; rfl) hd0_notin_rest
        rw [this, hlk_d0, hc]
      · have hmem := List.of_mem_zip hpr
        have h1 : lookupFS
            (removeFS (insertFS fs (get_unique_filename fs folder stem ext) c) s) pr.1 =
            lookupFS fs pr.1 := by
          rw [hfs1, if_neg (fun h : pr.1 = s => hnd.1 (h ▸ hmem.1)),
            if_neg (hne_d0 pr.1 (hex pr.1 (List.mem_cons_of_mem _ hmem.1)))]
        rw [zipR pr hpr, h1]
    · intro p hp hpns
      have hps : p ≠ s := fun h => hpns (h ▸ List.mem_cons_self _ _)
      have hpd0 : p ≠ get_unique_filename fs folder stem ext := hne_d0 p hp
      have h1 : lookupFS
          (removeFS (insertFS fs (get_unique_filename fs folder stem ext) c) s) p =
          lookupFS fs p := by
        rw [hfs1, if_neg hps, if_neg hpd0]
      rw [frameR p (by rw [h1]; exact hp) (fun h => hpns (List.mem_cons_of_mem _ h)), h1]

/-- C5: collision resolution always returns a path that does not currently
exist: get_unique_path and get_unique_filename return the requested path
when it is free and otherwise the first free numbered candidate (an
incrementing numeric suffix before the extension); consequently,
relocating a list of distinct source files that all map to the same
destination folder and base name yields pairwise distinct destination
files, each holding its own source's content, with none overwritten. -/
theorem C5_collision_resolution :
    (∀ (fs : FS) (destination : FPath),
      fexists fs destination = false → get_unique_path fs destination = destination) ∧
    (∀ (fs : FS) (destination : FPath),
      fexists fs (get_unique_path fs destination) = false) ∧
    (∀ (fs : FS) (destination : FPath),
      fexists fs destination = true →
      ∃ k, 2 ≤ k ∧ get_unique_path fs destination = candidateName destination k) ∧
    (∀ (fs : FS) (dest_folder stem ext : String),
      fexists fs ⟨dest_folder, stem, ext⟩ = false →
      get_unique_filename fs dest_folder stem ext = ⟨dest_folder, stem, ext⟩) ∧
    (∀ (fs : FS) (dest_folder stem ext : String),
      fexists fs (get_unique_filename fs dest_folder stem ext) = false) ∧
    (∀ (folder stem ext : String) (srcs : List FPath) (fs : FS),
      srcs.Nodup →
      (∀ s ∈ srcs, s.dir ≠ folder) →
      (∀ s ∈ srcs, (lookupFS fs s).isSome = true) →
      (relocate_all folder stem ext fs srcs).2.Nodup ∧
      (∀ pr ∈ srcs.zip (relocate_all folder stem ext fs srcs).2,
        lookupFS (relocate_all folder stem ext fs srcs).1 pr.2 = lookupFS fs pr.1)) := by
  refine ⟨?_, ?_, ?_, ?_, ?_, ?_⟩
  · intro fs destination h
    exact get_unique_path_of_free h
  · intro fs destination
    exact get_unique_path_free fs destination
  · intro fs destination h
    exact get_unique_path_suffixed h
  · intro fs dest_folder stem ext h
    exact get_unique_filename_of_free h
  · intro fs dest_folder stem ext
    exact get_unique_filename_free fs dest_folder stem ext
  · intro folder stem ext srcs fs h1 h2 h3
    obtain ⟨hnd, _, hzip, _⟩ := relocate_all_spec folder stem ext srcs fs h1 h2 h3
    exact ⟨hnd, hzip⟩

/-- Witness for C5: two distinct downloads both mapping to Media/n.jpg are
relocated to distinct destinations holding their own contents, the free
path is returned unchanged, and an occupied path gets a numbered
candidate. -/
theorem C5_collision_resolution_witness :
    get_unique_path [] ⟨"Media", "n", ".jpg"⟩ = ⟨"Media", "n", ".jpg"⟩ ∧
    (∃ k, 2 ≤ k ∧
      get_unique_path [(⟨"Media", "n", ".jpg"⟩, [7])] ⟨"Media", "n", ".jpg"⟩ =
        candidateName ⟨"Media", "n", ".jpg"⟩ k) ∧
    get_unique_filename [] "Media" "n" ".jpg" = ⟨"Media", "n", ".jpg"⟩ ∧
    ((relocate_all "Media" "n" ".jpg"
        [(⟨"Downloads", "a", ".jpg"⟩, [1]), (⟨"Desktop", "b", ".jpg"⟩, [2])]
        [⟨"Downloads", "a", ".jpg"⟩, ⟨"Desktop", "b", ".jpg"⟩]).2.Nodup ∧
      (∀ pr ∈ ([⟨"Downloads", "a", ".jpg"⟩, ⟨"Desktop", "b", ".jpg"⟩] : List FPath).zip
          (relocate_all "Media" "n" ".jpg"
            [(⟨"Downloads", "a", ".jpg"⟩, [1]), (⟨"Desktop", "b", ".jpg"⟩, [2])]
            [⟨"Downloads", "a", ".jpg"⟩, ⟨"Desktop", "b", ".jpg"⟩]).2,
        lookupFS (relocate_all "Media" "n" ".jpg"
            [(⟨"Downloads", "a", ".jpg"⟩, [1]), (⟨"Desktop", "b", ".jpg"⟩, [2])]
            [⟨"Downloads", "a", ".jpg"⟩, ⟨"Desktop", "b", ".jpg"⟩]).1 pr.2 =
          lookupFS [(⟨"Downloads", "a", ".jpg"⟩, [1]), (⟨"Desktop", "b", ".jpg"⟩, [2])] pr.1)) :=
  ⟨C5_collision_resolution.1 [] ⟨"Media", "n", ".jpg"⟩ (by decide),
   C5_collision_resolution.2.2.1 [(⟨"Media", "n", ".jpg"⟩, [7])] ⟨"Media", "n", ".jpg"⟩
     (by decide),
   C5_collision_resolution.2.2.2.1 [] "Media" "n" ".jpg" (by decide),
   C5_collision_resolution.2.2.2.2.2 "Media" "n" ".jpg"
     [⟨"Downloads", "a", ".jpg"⟩, ⟨"Desktop", "b", ".jpg"⟩]
     [(⟨"Downloads", "a", ".jpg"⟩, [1]), (⟨"Desktop", "b", ".jpg"⟩, [2])]
     (by decide) (by decide) (by decide)⟩

end DownloadsOrganizer
